import Mathlib

/-!
Verification of the package and type-token resolution core of
`pkg/pulumiyaml/packages.go` (pulumi-yaml). The Go source is shallowly
embedded: pure string manipulation becomes Lean functions on `String`,
Go maps become association lists or functions to `Option`, pointer
mutation of map entries becomes explicit map updates, fallible code
returns `Except`, and the external schema loader is a function
parameter. `strings.Split(s, ":")` is embedded as `splitColon`
(structural recursion over the character list, semantically the Go
split on a single-character separator).
-/

namespace PulumiYaml

/-- Auxiliary for `splitColon`: walk the character list, accumulating the
current segment (reversed). -/
def splitColonAux : List Char → List Char → List String
  | [], acc => [String.mk acc.reverse]
  | c :: rest, acc =>
    if c = ':' then String.mk acc.reverse :: splitColonAux rest []
    else splitColonAux rest (c :: acc)

/-- Embedding of Go `strings.Split(s, ":")`: split a string on colons.
Like the Go function it always returns at least one segment. -/
def splitColon (s : String) : List String :=
  splitColonAux s.data []

/-- Embedding of `strcase.ToLowerCamel` as used on the third token label.
Modelled from the spec: the `strcase` library is an external dependency not
present in the source tree; the spec describes the transformation as "first
character lowercased, the rest preserved modulo standard camel-case rules",
and for the single-word type names this code passes in, lowercasing the
first character is exactly that behaviour. -/
def toLowerCamel (s : String) : String :=
  match s.data with
  | [] => ""
  | c :: rest => String.mk (c.toLower :: rest)

/-- Errors produced by the resolution core, mirroring the distinct
`fmt.Errorf` sites of `packages.go`. -/
inductive PkgError where
  /-- "invalid type token %q" -/
  | invalidTypeToken (tok : String)
  /-- "The resource type [%v] is not supported in YAML at this time, see: %v" -/
  | kubernetesUnsupported (tok issue : String)
  /-- "Helm Chart resources are not supported in YAML, consider using the Helm Release resource instead: ..." -/
  | helmChart
  /-- "Docker Image resources are not supported in YAML without major version >= 4, see: ..." -/
  | dockerNeedsV4
  /-- Failure of `contract.Assertf` in the Docker compatibility gate. -/
  | assertFailed
  /-- "error loading schema for %q: ..." (wraps `ErrGetSchemaNotImplemented`). -/
  | schemaUnavailable (pkgName : String)
  /-- "internal error loading package %q: ..." -/
  | internalLoad (pkgName : String)
  /-- "unable to find resource type %q in resource provider %q" -/
  | unknownResource (tok pkgName : String)
  /-- "unable to find function %q in resource provider %q" -/
  | unknownFunction (tok pkgName : String)
  /-- An error surfaced by a lookup callback. -/
  | lookupFailure (msg : String)
deriving DecidableEq

/-- Result triple of a lookup callback, mirroring the Go closure type
`func(string) (string, bool, error)` passed to `resolveToken`. -/
structure LookupResult where
  token : String
  found : Bool
  err : Option PkgError
deriving DecidableEq

/-- Result of `resolveToken`, mirroring its Go `(string, bool, error)`
return: a token was found, nothing was found, or an error occurred. -/
inductive TokenResult where
  | found (tok : String)
  | notFound
  | errored (e : PkgError)
deriving DecidableEq

/-- Embedding of `resolveToken` from `packages.go`: split the user token
on colons; tokens with fewer than 2 or more than 3 segments are invalid;
try the token as given, then (for two segments) the `pkg:index:type`
expansion, then the legacy `pkg:mod/lowerCamel(Type):Type` form; the
first candidate the callback reports found wins, and any callback error
is propagated. -/
def resolveToken (typeName : String) (resolve : String → LookupResult) : TokenResult :=
  match splitColon typeName with
  | [a, b] =>
    let r := resolve typeName
    if r.found then .found r.token
    else match r.err with
    | some e => .errored e
    | none =>
      let alternateName := a ++ ":index:" ++ b
      let r2 := resolve alternateName
      if r2.found then .found r2.token
      else match r2.err with
      | some e => .errored e
      | none =>
        let repeatedSection := toLowerCamel b
        let legacyName := a ++ ":" ++ "index" ++ "/" ++ repeatedSection ++ ":" ++ b
        let r3 := resolve legacyName
        if r3.found then .found r3.token
        else match r3.err with
        | some e => .errored e
        | none => .notFound
  | [a, b, c] =>
    let r := resolve typeName
    if r.found then .found r.token
    else match r.err with
    | some e => .errored e
    | none =>
      let repeatedSection := toLowerCamel c
      let legacyName := a ++ ":" ++ b ++ "/" ++ repeatedSection ++ ":" ++ c
      let r3 := resolve legacyName
      if r3.found then .found r3.token
      else match r3.err with
      | some e => .errored e
      | none => .notFound
  | _ => .errored (.invalidTypeToken typeName)

/-- Semantic version, embedding the parts of `blang/semver.Version` this
code consults. -/
structure SemVer where
  major : Nat
  minor : Nat
  patch : Nat
deriving DecidableEq

/-- An entry of a package's resource table, embedding the fields of
`schema.Resource` consulted by resolution. -/
structure ResourceEntry where
  token : String
  isComponent : Bool
deriving DecidableEq

/-- An entry of a package's function table. -/
structure FunctionEntry where
  token : String
deriving DecidableEq

/-- First-match association-list lookup, embedding a Go map read. -/
def lookupAssoc {α : Type} : List (String × α) → String → Option α
  | [], _ => none
  | (k, v) :: rest, key => if k = key then some v else lookupAssoc rest key

/-- A loaded package: embedding of `resourcePackage`, a façade over a
`schema.PackageReference` exposing a name, an optional version, and
resource and function tables keyed by canonical token. -/
structure PackageModel where
  name : String
  version : Option SemVer
  resources : List (String × ResourceEntry)
  functions : List (String × FunctionEntry)
deriving DecidableEq

/-- Embedding of `resourcePackage.resolveProvider`: a token of shape
`pulumi:providers:X` with `X` equal to the package's own name is its own
canonical form. -/
def PackageModel.resolveProvider (p : PackageModel) (typeName : String) : Option String :=
  match splitColon typeName with
  | [a, b, c] =>
    if a = "pulumi" ∧ b = "providers" ∧ c = p.name then some typeName else none
  | _ => none

/-- Embedding of `resourcePackage.ResolveResource`: provider shortcut
first, then `resolveToken` against the resource table. -/
def PackageModel.ResolveResource (p : PackageModel) (typeName : String) :
    Except PkgError String :=
  match p.resolveProvider typeName with
  | some tk => .ok tk
  | none =>
    match resolveToken typeName (fun tk =>
      match lookupAssoc p.resources tk with
      | some res => { token := res.token, found := true, err := none }
      | none => { token := "", found := false, err := none }) with
    | .found tk => .ok tk
    | .notFound => .error (.unknownResource typeName p.name)
    | .errored e => .error e

/-- Embedding of `resourcePackage.ResolveFunction`: its own segment-count
check, then `resolveToken` against the function table. -/
def PackageModel.ResolveFunction (p : PackageModel) (typeName : String) :
    Except PkgError String :=
  let typeParts := splitColon typeName
  if typeParts.length < 2 ∨ typeParts.length > 3 then
    .error (.invalidTypeToken typeName)
  else
    match resolveToken typeName (fun tk =>
      match lookupAssoc p.functions tk with
      | some fn => { token := fn.token, found := true, err := none }
      | none => { token := "", found := false, err := none }) with
    | .found tk => .ok tk
    | .notFound => .error (.unknownFunction typeName p.name)
    | .errored e => .error e

/-- Parameterization of a package declaration or descriptor: a secondary
name/version identity, as in `packages.PackageDecl.Parameterization`. -/
structure ParameterizationDecl where
  name : String
  version : String
deriving DecidableEq

/-- Embedding of `schema.PackageDescriptor` (the fields this code reads
and writes: name, optional version, download URL, parameterization). -/
structure PackageDescriptor where
  name : String
  version : Option SemVer
  downloadURL : String
  parameterization : Option ParameterizationDecl
deriving DecidableEq

/-- The caller-supplied descriptor map `map[tokens.Package]*schema.PackageDescriptor`:
a nil pointer (absent key) is `none`. Pointer mutation of an entry is
embedded as an update of this map. -/
def DescriptorMap : Type := String → Option PackageDescriptor

/-- Failures of the external `schema.ReferenceLoader`: the sentinel
`schema.ErrGetSchemaNotImplemented` or any other failure. -/
inductive LoadFailure where
  | schemaNotImplemented
  | generic
deriving DecidableEq

/-- The external loader: from a descriptor, a package or a failure.
An abstract parameter, as the plugin host is outside this subsystem. -/
def LoaderModel : Type := PackageDescriptor → Except LoadFailure PackageModel

/-- Embedding of `ResolvePkgName`: for `pulumi:providers:X` the package
name is `X`; otherwise it is the first label. -/
def ResolvePkgName (typeString : String) : String :=
  match splitColon typeString with
  | [a, b, c] => if a = "pulumi" ∧ b = "providers" then c else a
  | parts => parts.headD ""

/-- Error wrapping of `packageLoader.LoadPackage` failures inside
`loadPackage`: the not-implemented sentinel becomes the
schema-unavailable error, anything else the internal load error. -/
def wrapLoadResult (r : Except LoadFailure PackageModel) (packageName : String) :
    Except PkgError PackageModel :=
  match r with
  | .ok pkg => .ok pkg
  | .error .schemaNotImplemented => .error (.schemaUnavailable packageName)
  | .error .generic => .error (.internalLoad packageName)

/-- Outcome of a `loadPackage` call: the result, the caller's descriptor
map as it stands after the call (the Go code mutates the shared
descriptor through its pointer), and the descriptors actually handed to
the underlying `LoadPackage`. -/
structure LoadOutcome where
  result : Except PkgError PackageModel
  descriptors : DescriptorMap
  calls : List PackageDescriptor

/-- Embedding of `loadPackage`: validate the token, select the
descriptor (the caller's entry if present, else a synthesized one), let
a non-nil version override replace the descriptor's version — writing
through the shared pointer when the descriptor came from the map — and
delegate to the loader. -/
def loadPackage (loader : LoaderModel) (descriptors : DescriptorMap)
    (typeString : String) (version : Option SemVer) : LoadOutcome :=
  let typeParts := splitColon typeString
  if typeParts.length < 2 ∨ typeParts.length > 3 then
    ⟨.error (.invalidTypeToken typeString), descriptors, []⟩
  else
    let packageName := ResolvePkgName typeString
    match descriptors packageName with
    | none =>
      let descriptor : PackageDescriptor :=
        { name := packageName, version := version, downloadURL := "", parameterization := none }
      ⟨wrapLoadResult (loader descriptor) packageName, descriptors, [descriptor]⟩
    | some d0 =>
      let d := match version with
        | none => d0
        | some v => { d0 with version := some v }
      ⟨wrapLoadResult (loader d) packageName,
        fun n => if n = packageName then some d else descriptors n, [d]⟩

/-- The fixed token set of `docker3ResourceNames`. -/
def docker3ResourceNames : List String :=
  ["docker:image:Image", "docker:Image"]

/-- The fixed token table of `kubernetesResourceNames`. -/
def kubernetesResourceNames : List (String × String) :=
  [("kubernetes:kustomize:Directory", "https://github.com/pulumi/pulumi-kubernetes/issues/1971"),
   ("kubernetes:yaml:ConfigFile", "https://github.com/pulumi/pulumi-kubernetes/issues/1971"),
   ("kubernetes:yaml:ConfigGroup", "https://github.com/pulumi/pulumi-kubernetes/issues/1971")]

/-- The fixed token set of `helmResourceNames`. -/
def helmResourceNames : List String :=
  ["kubernetes:helm.sh/v2:Chart", "kubernetes:helm.sh/v3:Chart"]

/-- The Docker gate's version test: true when the resolved version is
unknown or its major version is at most 3. -/
def dockerTooOld : Option SemVer → Bool
  | none => true
  | some v => v.major ≤ 3

/-- The condition of the `contract.Assertf` call in the Docker gate:
the version override is nil or has major version at most 3. -/
def dockerAssertCond : Option SemVer → Bool
  | none => true
  | some v => v.major ≤ 3

/-- Outcome of the top-level `ResolveResource`: the result, the
descriptor map after the call, and the loader invocations made. -/
structure TopOutcome where
  result : Except PkgError (PackageModel × String)
  descriptors : DescriptorMap
  calls : List PackageDescriptor

/-- Embedding of the top-level `ResolveResource`: kubernetes gate, helm
gate, package load, docker version gate (with its assertion), then the
package's own resolution. -/
def ResolveResource (loader : LoaderModel) (descriptors : DescriptorMap)
    (typeString : String) (version : Option SemVer) : TopOutcome :=
  match lookupAssoc kubernetesResourceNames typeString with
  | some issue => ⟨.error (.kubernetesUnsupported typeString issue), descriptors, []⟩
  | none =>
    if typeString ∈ helmResourceNames then
      ⟨.error .helmChart, descriptors, []⟩
    else
      let lo := loadPackage loader descriptors typeString version
      match lo.result with
      | .error e => ⟨.error e, lo.descriptors, lo.calls⟩
      | .ok pkg =>
        if typeString ∈ docker3ResourceNames ∧ dockerTooOld pkg.version = true then
          if dockerAssertCond version = true then
            ⟨.error .dockerNeedsV4, lo.descriptors, lo.calls⟩
          else
            ⟨.error .assertFailed, lo.descriptors, lo.calls⟩
        else
          match pkg.ResolveResource typeString with
          | .error e => ⟨.error e, lo.descriptors, lo.calls⟩
          | .ok tk => ⟨.ok (pkg, tk), lo.descriptors, lo.calls⟩

/-- A package declaration as produced by the scanner. Modelled from the
spec: `packages.PackageDecl` lives outside the provided source tree; the
spec's data model gives it name, version, downloadURL and an optional
parameterization, with empty strings meaning "unspecified". -/
structure PackageDecl where
  name : String
  version : String
  downloadURL : String
  parameterization : Option ParameterizationDecl
deriving DecidableEq

/-- A node the template walker hands to the scanner. Modelled from the
spec: the AST and walker live outside the provided source tree; the walk
visits each resource node (key, optional type, version and download-URL
options, where a missing string expression reads as the empty string)
and each invoke expression (optional token plus call options), in
template order. -/
inductive ScanNode where
  | resource (key : String) (type? : Option String) (version downloadURL : String)
  | invoke (token? : Option String) (version downloadURL : String)
deriving DecidableEq

/-- A template as the scanner sees it. Modelled from the spec: an
explicit packages section plus the walked resource/invoke nodes. -/
structure TemplateDecl where
  packages : List PackageDecl
  nodes : List ScanNode
deriving DecidableEq

/-- A diagnostic accumulated during a scan. Modelled from the spec: each
diagnostic this scanner emits is an error-severity diagnostic attached to
the offending node; we record the node's position and the message, and a
scan returning any such diagnostics yields an empty package list. -/
structure Diag where
  nodeIdx : Nat
  msg : String
deriving DecidableEq

/-- The message of `ExprError` for a conflicting version. -/
def conflictVersionMsg (pkg entryVersion : String) : String :=
  "Package " ++ pkg ++ " already declared with a conflicting version: " ++ entryVersion

/-- The message of `ExprError` for a conflicting plugin download URL. -/
def conflictURLMsg (pkg entryURL : String) : String :=
  "Package " ++ pkg ++ " already declared with a conflicting plugin download URL: " ++ entryURL

/-- The message of `NodeError` for a resource without a type. -/
def missingTypeMsg (key : String) : String :=
  "Resource declared without a type: " ++ key

/-- The message of `NodeError` for an invoke without a function token. -/
def missingInvokeTokenMsg : String :=
  "Invoke declared without a function type"

/-- Update the first binding of a key in an association list, embedding
mutation of a Go map entry through its pointer. -/
def updateAssoc {α : Type} : List (String × α) → String → α → List (String × α)
  | [], _, _ => []
  | (k, v) :: rest, key, newV =>
    if k = key then (k, newV) :: rest else (k, v) :: updateAssoc rest key newV

/-- Embedding of the seeding loop of `GetReferencedPackages` over the
template's explicit package declarations: the effective name and version
come from the parameterization when present; a duplicate name only fills
the stored entry's empty version and download-URL fields; a fresh name
stores the declaration itself. -/
def seedPackages : List PackageDecl → List (String × PackageDecl) → List (String × PackageDecl)
  | [], m => m
  | pkg :: rest, m =>
    let name := match pkg.parameterization with
      | some param => param.name
      | none => pkg.name
    let version := match pkg.parameterization with
      | some param => param.version
      | none => pkg.version
    match lookupAssoc m name with
    | some entry =>
      let entry1 := if entry.version = "" then { entry with version := version } else entry
      let entry2 :=
        if entry1.downloadURL = "" then { entry1 with downloadURL := pkg.downloadURL } else entry1
      seedPackages rest (updateAssoc m name entry2)
    | none => seedPackages rest (m ++ [(name, pkg)])

/-- Embedding of the `acceptType` closure: reconcile an observed
`(typeName, version, downloadURL)` into the package map, emitting a
conflicting-version or conflicting-URL diagnostic (attached to node
`nodeIdx`) when a differing non-empty value meets a non-empty stored
value, adopting the observation when the stored value is empty, and
inserting a fresh declaration for an unseen package name. -/
def acceptType (nodeIdx : Nat) (typeName version pluginDownloadURL : String)
    (m : List (String × PackageDecl)) : List (String × PackageDecl) × List Diag :=
  let pkg := ResolvePkgName typeName
  match lookupAssoc m pkg with
  | some entry =>
    let step1 : PackageDecl × List Diag :=
      if version ≠ "" ∧ entry.version ≠ version then
        if entry.version = "" then ({ entry with version := version }, [])
        else (entry, [⟨nodeIdx, conflictVersionMsg pkg entry.version⟩])
      else (entry, [])
    let step2 : PackageDecl × List Diag :=
      if pluginDownloadURL ≠ "" ∧ step1.1.downloadURL ≠ pluginDownloadURL then
        if step1.1.downloadURL = "" then ({ step1.1 with downloadURL := pluginDownloadURL }, step1.2)
        else (step1.1, step1.2 ++ [⟨nodeIdx, conflictURLMsg pkg step1.1.downloadURL⟩])
      else (step1.1, step1.2)
    (updateAssoc m pkg step2.1, step2.2)
  | none =>
    (m ++ [(pkg, { name := pkg, version := version, downloadURL := pluginDownloadURL,
                   parameterization := none })], [])

/-- Embedding of the template walk of `GetReferencedPackages`: visit the
nodes in order, diagnosing resources without a type and invokes without a
token, and feeding every observed type token to `acceptType`. -/
def scanNodes : List ScanNode → Nat → List (String × PackageDecl) → List Diag →
    List (String × PackageDecl) × List Diag
  | [], _, m, ds => (m, ds)
  | .resource key none _ _ :: rest, i, m, ds =>
    scanNodes rest (i + 1) m (ds ++ [⟨i, missingTypeMsg key⟩])
  | .resource _ (some ty) version url :: rest, i, m, ds =>
    let step := acceptType i ty version url m
    scanNodes rest (i + 1) step.1 (ds ++ step.2)
  | .invoke none _ _ :: rest, i, m, ds =>
    scanNodes rest (i + 1) m (ds ++ [⟨i, missingInvokeTokenMsg⟩])
  | .invoke (some tok) version url :: rest, i, m, ds =>
    let step := acceptType i tok version url m
    scanNodes rest (i + 1) step.1 (ds ++ step.2)

/-- Lexicographic comparison of character lists, embedding Go's `<` on
strings (bytewise comparison of UTF-8 strings, which coincides with
lexicographic comparison of code points). -/
def charListLtB : List Char → List Char → Bool
  | _, [] => false
  | [], _ :: _ => true
  | a :: as, b :: bs => if a = b then charListLtB as bs else decide (a < b)

/-- Embedding of Go string comparison `s1 < s2`. -/
def strLtB (a b : String) : Bool :=
  charListLtB a.data b.data

/-- The comparator handed to `sort.Slice` in `GetReferencedPackages`:
name, then version string, then — with both parameterizations absent —
download URL; an absent parameterization sorts first; otherwise
parameterization name then parameterization version. -/
def packageDeclLess (pI pJ : PackageDecl) : Bool :=
  if pI.name ≠ pJ.name then strLtB pI.name pJ.name
  else if pI.version ≠ pJ.version then strLtB pI.version pJ.version
  else match pI.parameterization, pJ.parameterization with
  | none, none => strLtB pI.downloadURL pJ.downloadURL
  | none, some _ => true
  | some _, none => false
  | some a, some b =>
    if a.name ≠ b.name then strLtB a.name b.name
    else strLtB a.version b.version

/-- The non-strict order underlying `packageDeclLess`: `a` may precede
`b` whenever `b` is not strictly less than `a`. -/
def packageLE (a b : PackageDecl) : Prop :=
  packageDeclLess b a = false

instance : DecidableRel packageLE :=
  fun a b => instDecidableEqBool (packageDeclLess b a) false

/-- Embedding of `GetReferencedPackages`: seed the map from the explicit
packages section, walk the nodes, return no list when diagnostics were
raised (all scanner diagnostics are errors, and a scan with error
diagnostics yields an empty list), otherwise drop the built-in `pulumi`
package and sort with the `sort.Slice` comparator. -/
def GetReferencedPackages (tmpl : TemplateDecl) :
    Option (List PackageDecl) × List Diag :=
  let m0 := seedPackages tmpl.packages []
  let step := scanNodes tmpl.nodes 0 m0 []
  if step.2 ≠ [] then (none, step.2)
  else
    let pkgs := (step.1.map Prod.snd).filter (fun p => p.name ≠ "pulumi")
    (some (List.insertionSort packageLE pkgs), step.2)

/-- Embedding of the top-level `ResolveFunction`: load, then the
package's own function resolution. -/
def ResolveFunction (loader : LoaderModel) (descriptors : DescriptorMap)
    (typeString : String) (version : Option SemVer) : TopOutcome :=
  let lo := loadPackage loader descriptors typeString version
  match lo.result with
  | .error e => ⟨.error e, lo.descriptors, lo.calls⟩
  | .ok pkg =>
    match pkg.ResolveFunction typeString with
    | .error e => ⟨.error e, lo.descriptors, lo.calls⟩
    | .ok tk => ⟨.ok (pkg, tk), lo.descriptors, lo.calls⟩

/-- Candidate sequence described by the specification for token
resolution: the token as given; for a two-segment token `A:B` the
expansion `A:index:B`; then for the resulting three-segment token the
legacy repeated-section form built from its labels and the
lower-camel-cased type name. -/
def candidateTokens (typeName : String) : List String :=
  match splitColon typeName with
  | [a, b] =>
    [typeName,
     a ++ ":index:" ++ b,
     a ++ ":" ++ "index" ++ "/" ++ toLowerCamel b ++ ":" ++ b]
  | [a, b, c] =>
    [typeName,
     a ++ ":" ++ b ++ "/" ++ toLowerCamel c ++ ":" ++ c]
  | _ => []

/-- Try candidates in order: return the first one the lookup reports
found, propagate the first lookup error otherwise encountered, and
report not-found when the list is exhausted. -/
def runCandidates (resolve : String → LookupResult) : List String → TokenResult
  | [] => .notFound
  | n :: rest =>
    let r := resolve n
    if r.found then .found r.token
    else match r.err with
    | some e => .errored e
    | none => runCandidates resolve rest

/-- A concrete descriptor map holding an `aws` descriptor pinned at
version 6.0.0, aliased into `loadPackage` below. -/
def c2Descriptors : DescriptorMap :=
  fun n => if n = "aws" then some ⟨"aws", some ⟨6, 0, 0⟩, "", none⟩ else none

/-- A loader that fails generically; `loadPackage` mutates the shared
descriptor before the loader is consulted, so the failure is irrelevant. -/
def c2Loader : LoaderModel := fun _ => .error .generic

/-- The sort key described by the specification: name ascending; then
version ascending, comparing the version strings lexicographically; then
for two entries without parameterizations the download URL; an absent
parameterization before a present one; then parameterization name and
parameterization version. -/
def sortKey (p : PackageDecl) :
    String ×ₗ String ×ₗ Bool ×ₗ String ×ₗ String ×ₗ String :=
  toLex (p.name, toLex (p.version,
    match p.parameterization with
    | none => toLex (false, toLex (p.downloadURL, toLex ("", "")))
    | some pr => toLex (true, toLex ("", toLex (pr.name, pr.version)))))

/-- C3: for every user token with 2 or 3 colon-separated segments and
every lookup callback, `resolveToken` tries exactly the candidate
sequence of the specification in order — the literal token, then for a
two-segment token its `A:index:B` expansion, then the legacy
`A:B/lowerCamel(C):C` form — returning the first candidate the lookup
reports found, returning not-found when no candidate is found and no
lookup error occurred, and propagating any lookup error. -/
theorem resolveToken_tries_candidates_in_order (typeName : String)
    (resolve : String → LookupResult)
    (h : (splitColon typeName).length = 2 ∨ (splitColon typeName).length = 3) :
    resolveToken typeName resolve = runCandidates resolve (candidateTokens typeName) := by
  rcases hsp : splitColon typeName with _ | ⟨a, _ | ⟨b, _ | ⟨c, _ | ⟨d, l⟩⟩⟩⟩ <;>
    rw [hsp] at h <;> simp at h <;>
    simp [resolveToken, candidateTokens, runCandidates, hsp]

/-- Witness for C3 at the token `aws:s3:Bucket` and a lookup that finds
nothing. -/
theorem resolveToken_tries_candidates_in_order_witness :
    resolveToken "aws:s3:Bucket" (fun _ => ⟨"", false, none⟩) =
      runCandidates (fun _ => ⟨"", false, none⟩) (candidateTokens "aws:s3:Bucket") :=
  resolveToken_tries_candidates_in_order "aws:s3:Bucket" (fun _ => ⟨"", false, none⟩)
    (Or.inr (by decide))

/-- Any token the provider shortcut returns is the input token itself. -/
theorem resolveProvider_eq_self (p : PackageModel) (t tk : String)
    (h : p.resolveProvider t = some tk) : tk = t := by
  unfold PackageModel.resolveProvider at h
  split at h
  · split at h
    · exact (Option.some_inj.mp h).symm
    · exact absurd h (by simp)
  · exact absurd h (by simp)

/-- C4: canonicalization is idempotent, for each table independently.
For a token `t` with 2 or 3 segments: whenever `t` is present in a
package's resource table (with the table keyed by the entry's own
canonical token), `ResolveResource t` returns `t` without error; and
likewise, whenever `t` is present in the function table,
`ResolveFunction t` returns `t` without error. -/
theorem canonical_token_idempotent (p : PackageModel) (t : String)
    (hseg : (splitColon t).length = 2 ∨ (splitColon t).length = 3) :
    (∀ er : ResourceEntry, lookupAssoc p.resources t = some er → er.token = t →
      p.ResolveResource t = .ok t) ∧
    (∀ ef : FunctionEntry, lookupAssoc p.functions t = some ef → ef.token = t →
      p.ResolveFunction t = .ok t) := by
  constructor
  · intro er hr hrt
    have hres : resolveToken t (fun tk =>
        match lookupAssoc p.resources tk with
        | some res => { token := res.token, found := true, err := none }
        | none => { token := "", found := false, err := none }) = .found t := by
      rcases hseg with h2 | h3
      · obtain ⟨a, b, hab⟩ := List.length_eq_two.mp h2
        simp [resolveToken, hab, hr, hrt]
      · obtain ⟨a, b, c, habc⟩ := List.length_eq_three.mp h3
        simp [resolveToken, habc, hr, hrt]
    unfold PackageModel.ResolveResource
    cases hp : p.resolveProvider t with
    | some tk => simp [resolveProvider_eq_self p t tk hp]
    | none => simp [hres]
  · intro ef hf hft
    have hfun : resolveToken t (fun tk =>
        match lookupAssoc p.functions tk with
        | some fn => { token := fn.token, found := true, err := none }
        | none => { token := "", found := false, err := none }) = .found t := by
      rcases hseg with h2 | h3
      · obtain ⟨a, b, hab⟩ := List.length_eq_two.mp h2
        simp [resolveToken, hab, hf, hft]
      · obtain ⟨a, b, c, habc⟩ := List.length_eq_three.mp h3
        simp [resolveToken, habc, hf, hft]
    have hlen : ¬((splitColon t).length < 2 ∨ (splitColon t).length > 3) := by
      rcases hseg with h2 | h3 <;> omega
    unfold PackageModel.ResolveFunction
    simp [hlen, hfun]

/-- Witness for C4, one package per half: `aws:s3/bucket:Bucket` is
canonical only in a resource table, `aws:index:getAmi` only in a
function table, and each resolves to itself through its own path. -/
theorem canonical_token_idempotent_witness :
    PackageModel.ResolveResource
        ⟨"aws", none, [("aws:s3/bucket:Bucket", ⟨"aws:s3/bucket:Bucket", false⟩)], []⟩
        "aws:s3/bucket:Bucket" = .ok "aws:s3/bucket:Bucket" ∧
    PackageModel.ResolveFunction
        ⟨"aws", none, [], [("aws:index:getAmi", ⟨"aws:index:getAmi"⟩)]⟩
        "aws:index:getAmi" = .ok "aws:index:getAmi" :=
  ⟨(canonical_token_idempotent
      ⟨"aws", none, [("aws:s3/bucket:Bucket", ⟨"aws:s3/bucket:Bucket", false⟩)], []⟩
      "aws:s3/bucket:Bucket" (Or.inr (by decide))).1
      ⟨"aws:s3/bucket:Bucket", false⟩ (by decide) rfl,
   (canonical_token_idempotent
      ⟨"aws", none, [], [("aws:index:getAmi", ⟨"aws:index:getAmi"⟩)]⟩
      "aws:index:getAmi" (Or.inr (by decide))).2
      ⟨"aws:index:getAmi"⟩ (by decide) rfl⟩

/-- C6: for a package named `p`, the façade maps `pulumi:providers:p` to
itself — for every resource and function table, so no table lookup can
influence the result — while for `X` different from the package name the
provider shortcut is not taken. -/
theorem provider_shortcut (name X tok : String) (ver : Option SemVer)
    (rs : List (String × ResourceEntry)) (fs : List (String × FunctionEntry))
    (hsp : splitColon tok = ["pulumi", "providers", X]) :
    (X = name → PackageModel.ResolveResource ⟨name, ver, rs, fs⟩ tok = .ok tok) ∧
    (X ≠ name → PackageModel.resolveProvider ⟨name, ver, rs, fs⟩ tok = none) := by
  constructor
  · intro hX
    have hprov : PackageModel.resolveProvider ⟨name, ver, rs, fs⟩ tok = some tok := by
      simp [PackageModel.resolveProvider, hsp, hX]
    simp [PackageModel.ResolveResource, hprov]
  · intro hX
    simp [PackageModel.resolveProvider, hsp, hX]

/-- Witness for C6: `pulumi:providers:aws` on a package named `aws` with
empty tables resolves to itself, and the shortcut is refused when the
final label is `gcp` instead. -/
theorem provider_shortcut_witness :
    PackageModel.ResolveResource ⟨"aws", none, [], []⟩ "pulumi:providers:aws" =
        .ok "pulumi:providers:aws" ∧
    PackageModel.resolveProvider ⟨"aws", none, [], []⟩ "pulumi:providers:gcp" = none :=
  ⟨(provider_shortcut "aws" "aws" "pulumi:providers:aws" none [] [] (by decide)).1 rfl,
   (provider_shortcut "aws" "gcp" "pulumi:providers:gcp" none [] [] (by decide)).2 (by decide)⟩

/-- C8: for each token of the fixed Helm Chart set, the top-level
`ResolveResource` rejects with the Helm-Release guidance error, the
descriptor map is untouched, and no descriptor is ever handed to the
package loader: the rejection happens strictly before any load. -/
theorem helm_gate_rejects_before_load (loader : LoaderModel) (descriptors : DescriptorMap)
    (version : Option SemVer) (tok : String)
    (htok : tok = "kubernetes:helm.sh/v2:Chart" ∨ tok = "kubernetes:helm.sh/v3:Chart") :
    ResolveResource loader descriptors tok version =
      ⟨.error .helmChart, descriptors, []⟩ := by
  rcases htok with h | h <;> subst h <;> rfl

/-- Witness for C8 at `kubernetes:helm.sh/v3:Chart` with a loader that
would succeed if it were ever called. -/
theorem helm_gate_rejects_before_load_witness :
    ResolveResource (fun _ => .ok ⟨"kubernetes", some ⟨4, 0, 0⟩, [], []⟩)
        (fun _ => none) "kubernetes:helm.sh/v3:Chart" none =
      ⟨.error .helmChart, fun _ => none, []⟩ :=
  helm_gate_rejects_before_load _ _ none _ (Or.inr rfl)

/-- C5: for the fixed Docker image tokens, once the package load
succeeds, the top-level `ResolveResource` rejects with the Docker-v4
error exactly when the loaded package's resolved version is unknown or
has major version at most 3, and otherwise proceeds to the package's own
resolution; provided the loader honours a non-nil version override (the
loaded package reports the overridden version), the rejection path
satisfies the internal assertion rather than failing it. -/
theorem docker_gate_version_conditional (loader : LoaderModel) (descriptors : DescriptorMap)
    (version : Option SemVer) (tok : String) (pkg : PackageModel)
    (htok : tok = "docker:image:Image" ∨ tok = "docker:Image")
    (hload : (loadPackage loader descriptors tok version).result = .ok pkg)
    (hhonest : ∀ v0, version = some v0 → pkg.version = some v0) :
    (dockerTooOld pkg.version = true →
      (ResolveResource loader descriptors tok version).result = .error .dockerNeedsV4) ∧
    (dockerTooOld pkg.version = false →
      (ResolveResource loader descriptors tok version).result =
        match pkg.ResolveResource tok with
        | .ok tk => .ok (pkg, tk)
        | .error e => .error e) := by
  have hassert : dockerTooOld pkg.version = true → dockerAssertCond version = true := by
    intro htoo
    cases hv : version with
    | none => rfl
    | some v0 =>
      have hpv : pkg.version = some v0 := hhonest v0 hv
      rw [hpv] at htoo
      simp only [dockerTooOld, decide_eq_true_eq] at htoo
      simp only [dockerAssertCond, decide_eq_true_eq]
      exact htoo
  constructor
  · intro htoo
    rcases htok with h | h <;> subst h <;>
      simp [ResolveResource, lookupAssoc, kubernetesResourceNames, helmResourceNames,
        docker3ResourceNames, hload, htoo, hassert htoo]
  · intro htoo
    rcases htok with h | h <;> subst h <;>
      simp [ResolveResource, lookupAssoc, kubernetesResourceNames, helmResourceNames,
        docker3ResourceNames, hload, htoo] <;>
      cases pkg.ResolveResource _ <;> simp

/-- Witness for C5: a loader that resolves `docker` at major version 3
triggers the Docker-v4 rejection for `docker:image:Image`. -/
theorem docker_gate_version_conditional_witness :
    (ResolveResource (fun _ => .ok ⟨"docker", some ⟨3, 0, 0⟩, [], []⟩)
        (fun _ => none) "docker:image:Image" none).result = .error .dockerNeedsV4 :=
  (docker_gate_version_conditional (fun _ => .ok ⟨"docker", some ⟨3, 0, 0⟩, [], []⟩)
      (fun _ => none) none "docker:image:Image" ⟨"docker", some ⟨3, 0, 0⟩, [], []⟩
      (Or.inl rfl) rfl (fun v0 h => by cases h)).1 rfl

/-- Counterexample to C2: a call to `loadPackage` with the non-nil
version override 6.1.0 rewrites the caller's stored `aws` descriptor —
the descriptor is shared by pointer, so the override is written through
to the map entry, which afterwards differs from its original value. -/
theorem loadPackage_override_mutates_map :
    (loadPackage c2Loader c2Descriptors "aws:s3:Bucket" (some ⟨6, 1, 0⟩)).descriptors "aws" ≠
      c2Descriptors "aws" := by decide

/-- C2 as amended: with a non-nil version override, a `loadPackage` call
leaves the caller's descriptor map unchanged only when the map has no
entry for the package; when an entry exists, the call writes the
override version through the shared descriptor into the caller's map,
and in both cases the descriptor handed to `LoadPackage` carries the
override version. -/
theorem loadPackage_override_map_effect (loader : LoaderModel) (descriptors : DescriptorMap)
    (typeString : String) (v : SemVer)
    (hseg : ¬((splitColon typeString).length < 2 ∨ (splitColon typeString).length > 3)) :
    (descriptors (ResolvePkgName typeString) = none →
      (loadPackage loader descriptors typeString (some v)).descriptors = descriptors ∧
      (loadPackage loader descriptors typeString (some v)).calls =
        [⟨ResolvePkgName typeString, some v, "", none⟩]) ∧
    (∀ d0, descriptors (ResolvePkgName typeString) = some d0 →
      (loadPackage loader descriptors typeString (some v)).descriptors =
        (fun n => if n = ResolvePkgName typeString then some { d0 with version := some v }
                  else descriptors n) ∧
      (loadPackage loader descriptors typeString (some v)).calls =
        [{ d0 with version := some v }]) := by
  constructor
  · intro hd
    simp [loadPackage, hseg, hd]
  · intro d0 hd
    simp [loadPackage, hseg, hd]

/-- Witness for C2 as amended, at the concrete map holding `aws` at
6.0.0 and the override 6.1.0: the caller's map afterwards carries 6.1.0
for `aws`. -/
theorem loadPackage_override_map_effect_witness :
    (loadPackage c2Loader c2Descriptors "aws:s3:Bucket" (some ⟨6, 1, 0⟩)).descriptors =
      (fun n => if n = "aws" then some ⟨"aws", some ⟨6, 1, 0⟩, "", none⟩
                else c2Descriptors n) ∧
    (loadPackage c2Loader c2Descriptors "aws:s3:Bucket" (some ⟨6, 1, 0⟩)).calls =
      [⟨"aws", some ⟨6, 1, 0⟩, "", none⟩] :=
  (loadPackage_override_map_effect c2Loader c2Descriptors "aws:s3:Bucket" ⟨6, 1, 0⟩
      (by decide)).2 ⟨"aws", some ⟨6, 0, 0⟩, "", none⟩ rfl

/-- C9: whenever a scan returns a package list, no entry of that list is
named `pulumi` — the built-in package is dropped whether it was declared
explicitly or inferred from a type token. -/
theorem scan_output_excludes_pulumi (tmpl : TemplateDecl) (l : List PackageDecl)
    (ds : List Diag) (h : GetReferencedPackages tmpl = (some l, ds)) :
    ∀ p ∈ l, p.name ≠ "pulumi" := by
  simp only [GetReferencedPackages] at h
  split at h
  · simp at h
  · simp only [Prod.mk.injEq, Option.some.injEq] at h
    obtain ⟨hl, hds⟩ := h
    subst hl
    intro p hp
    have hp2 := (List.perm_insertionSort packageLE _).mem_iff.mp hp
    have hfilter := List.of_mem_filter hp2
    simpa using hfilter

/-- Witness for C9: a template whose resources reference `aws` and the
built-in `pulumi` package yields only the `aws` entry, and that entry is
not named `pulumi`. -/
theorem scan_output_excludes_pulumi_witness :
    (⟨"aws", "", "", none⟩ : PackageDecl).name ≠ "pulumi" :=
  scan_output_excludes_pulumi
    ⟨[], [.resource "a" (some "aws:s3:Bucket") "" "",
          .resource "p" (some "pulumi:pulumi:StackReference") "" ""]⟩
    [⟨"aws", "", "", none⟩] [] (by decide) ⟨"aws", "", "", none⟩ (by simp)

/-- The structural character-list comparison agrees with the
lexicographic strict order on character lists. -/
theorem charListLtB_iff : ∀ as bs : List Char,
    charListLtB as bs = true ↔ List.Lex (· < ·) as bs
  | as, [] => by cases as <;> simp [charListLtB]
  | [], b :: bs => by
    simp only [charListLtB]
    exact ⟨fun _ => List.Lex.nil, fun _ => trivial⟩
  | a :: as, b :: bs => by
    by_cases hab : a = b
    · subst hab
      have h1 : charListLtB (a :: as) (a :: bs) = charListLtB as bs := by
        simp [charListLtB]
      rw [h1, charListLtB_iff as bs, List.Lex.cons_iff]
    · simp only [charListLtB, if_neg hab]
      constructor
      · intro h
        exact List.Lex.rel (by simpa using h)
      · intro h
        cases h with
        | cons h => exact absurd rfl hab
        | rel h => simpa using h

/-- The embedded Go string comparison agrees with the strict order on
strings. -/
theorem strLtB_iff (a b : String) : strLtB a b = true ↔ a < b := by
  rw [String.lt_iff_toList_lt]
  exact charListLtB_iff a.data b.data

/-- The `sort.Slice` comparator agrees with strict comparison of the
specification's sort keys. -/
theorem packageDeclLess_iff_lt (a b : PackageDecl) :
    packageDeclLess a b = true ↔ sortKey a < sortKey b := by
  unfold packageDeclLess sortKey
  by_cases hn : a.name = b.name
  · by_cases hv : a.version = b.version
    · cases hpa : a.parameterization with
      | none =>
        cases hpb : b.parameterization with
        | none => simp [hn, hv, Prod.Lex.lt_iff, Bool.lt_iff, strLtB_iff]
        | some pb => simp [hn, hv, Prod.Lex.lt_iff, Bool.lt_iff, strLtB_iff]
      | some pa =>
        cases hpb : b.parameterization with
        | none => simp [hn, hv, Prod.Lex.lt_iff, Bool.lt_iff, strLtB_iff]
        | some pb =>
          by_cases hpn : pa.name = pb.name
          · simp [hn, hv, hpn, Prod.Lex.lt_iff, Bool.lt_iff, strLtB_iff]
          · simp [hn, hv, hpn, Prod.Lex.lt_iff, Bool.lt_iff, strLtB_iff]
    · cases hpa : a.parameterization <;> cases hpb : b.parameterization <;>
        simp [hn, hv, Prod.Lex.lt_iff, strLtB_iff]
  · simp [hn, Prod.Lex.lt_iff, strLtB_iff]

/-- The non-strict comparator order is exactly the non-strict key order. -/
theorem packageLE_iff (a b : PackageDecl) :
    packageLE a b ↔ sortKey a ≤ sortKey b := by
  rw [← not_lt, ← packageDeclLess_iff_lt b a]
  unfold packageLE
  simp

instance : IsTotal PackageDecl packageLE :=
  ⟨fun a b => by rw [packageLE_iff, packageLE_iff]; exact le_total _ _⟩

instance : IsTrans PackageDecl packageLE :=
  ⟨fun a b c hab hbc => by
    rw [packageLE_iff] at hab hbc ⊢
    exact le_trans hab hbc⟩

/-- C7: every package list a scan returns is sorted by exactly the
specified key — name ascending, then version string ascending
(lexicographically, so "10.0.0" sorts before "9.0.0"), then download URL
when both parameterizations are absent, an absent parameterization
before a present one, then parameterization name and version. -/
theorem scan_output_sorted (tmpl : TemplateDecl) (l : List PackageDecl)
    (ds : List Diag) (h : GetReferencedPackages tmpl = (some l, ds)) :
    l.Pairwise (fun a b => sortKey a ≤ sortKey b) := by
  simp only [GetReferencedPackages] at h
  split at h
  · simp at h
  · simp only [Prod.mk.injEq, Option.some.injEq] at h
    obtain ⟨hl, hds⟩ := h
    subst hl
    exact (List.sorted_insertionSort packageLE _).imp
      (fun hab => (packageLE_iff _ _).mp hab)

/-- Witness for C7: a template referencing `zeta` before `aws` scans to
an output list the theorem shows sorted (and indeed `aws` comes first). -/
theorem scan_output_sorted_witness :
    List.Pairwise (fun a b => sortKey a ≤ sortKey b)
      [(⟨"aws", "", "", none⟩ : PackageDecl), ⟨"zeta", "", "", none⟩] :=
  scan_output_sorted
    ⟨[], [.resource "z" (some "zeta:x:Y") "" "", .resource "a" (some "aws:s3:Bucket") "" ""]⟩
    [⟨"aws", "", "", none⟩, ⟨"zeta", "", "", none⟩] [] (by decide)

/-- Counterexample to C1: on the two-resource template of the claim
(`aws:s3:Bucket` at 6.0.0, then `aws:ec2:Instance` at 6.1.0) the scan
does not return a single-entry package list — it returns no list at all,
because the conflicting-version diagnostic is an error diagnostic. -/
theorem scan_conflict_returns_no_list :
    GetReferencedPackages ⟨[], [.resource "r1" (some "aws:s3:Bucket") "6.0.0" "",
        .resource "r2" (some "aws:ec2:Instance") "6.1.0" ""]⟩ =
      (none, [⟨1, "Package aws already declared with a conflicting version: 6.0.0"⟩]) := by
  decide

/-- C1 as amended: for a template with two resources referencing the same
package with different non-empty versions, the scan emits exactly one
conflicting-version diagnostic, attached to the second declaration and
naming the first-seen version — and, the scan now holding an error
diagnostic, it returns an empty (nil) package list rather than a list
with a single entry. -/
theorem scan_conflicting_versions (k1 k2 ty1 ty2 v1 v2 : String)
    (hpkg : ResolvePkgName ty2 = ResolvePkgName ty1)
    (h1 : v1 ≠ "") (h2 : v2 ≠ "") (hne : v1 ≠ v2) :
    GetReferencedPackages ⟨[], [.resource k1 (some ty1) v1 "", .resource k2 (some ty2) v2 ""]⟩ =
      (none, [⟨1, conflictVersionMsg (ResolvePkgName ty1) v1⟩]) := by
  simp [GetReferencedPackages, scanNodes, seedPackages, acceptType, lookupAssoc,
    hpkg, h1, h2, hne]

/-- Witness for C1 as amended, at the claim's own concrete template. -/
theorem scan_conflicting_versions_witness :
    GetReferencedPackages ⟨[], [.resource "b" (some "gcp:storage:Bucket") "7.0.0" "",
        .resource "i" (some "gcp:compute:Instance") "7.1.0" ""]⟩ =
      (none, [⟨1, conflictVersionMsg (ResolvePkgName "gcp:storage:Bucket") "7.0.0"⟩]) :=
  scan_conflicting_versions "b" "i" "gcp:storage:Bucket" "gcp:compute:Instance"
    "7.0.0" "7.1.0" (by decide) (by decide) (by decide) (by decide)

/-- Counterexample to C10: two parameterized declarations with the same
effective name `eff` and differing non-empty effective versions (1.0.0
then 2.0.0). The duplicate triggers no diagnostic, but the stored
declaration's empty outer version field is filled from the duplicate, so
the single output entry carries the second declaration's version 2.0.0 —
not the first declaration's — and is named `base`, not `eff`. -/
theorem duplicate_decl_adopts_second_version :
    GetReferencedPackages
        ⟨[⟨"base", "", "", some ⟨"eff", "1.0.0"⟩⟩,
          ⟨"other", "", "", some ⟨"eff", "2.0.0"⟩⟩], []⟩ =
      (some [⟨"base", "2.0.0", "", some ⟨"eff", "1.0.0"⟩⟩], []) := by
  decide

/-- C10 as amended: for two non-parameterized explicit declarations of
the same package name with differing non-empty versions, in a template
with no resource or invoke nodes and a name other than the built-in
`pulumi`, the scanner emits no diagnostic for the duplicate — unlike the
diagnostic-emitting reconciliation for resource and invoke nodes — and
the output holds exactly one entry for that name, keeping the first
declaration's version and filling only its empty download-URL field from
the duplicate. -/
theorem duplicate_package_decl_first_wins (p1 p2 : PackageDecl)
    (hp1 : p1.parameterization = none) (hp2 : p2.parameterization = none)
    (hname : p1.name = p2.name)
    (h1 : p1.version ≠ "") (h2 : p2.version ≠ "") (hne : p1.version ≠ p2.version)
    (hnp : p1.name ≠ "pulumi") :
    GetReferencedPackages ⟨[p1, p2], []⟩ =
      (some [{ p1 with downloadURL :=
          if p1.downloadURL = "" then p2.downloadURL else p1.downloadURL }], []) := by
  obtain ⟨n1, w1, u1, q1⟩ := p1
  obtain ⟨n2, w2, u2, q2⟩ := p2
  dsimp only at hp1 hp2 hname h1 h2 hne hnp ⊢
  subst hp1
  subst hp2
  subst hname
  by_cases hd : u1 = "" <;>
    simp [GetReferencedPackages, scanNodes, seedPackages, lookupAssoc, updateAssoc,
      List.insertionSort, List.orderedInsert, h1, hnp, hd]

/-- Witness for C10 as amended, at two concrete `aws` declarations
pinned to 6.0.0 and then 6.1.0. -/
theorem duplicate_package_decl_first_wins_witness :
    GetReferencedPackages
        ⟨[⟨"aws", "6.0.0", "", none⟩, ⟨"aws", "6.1.0", "https://u", none⟩], []⟩ =
      (some [{ (⟨"aws", "6.0.0", "", none⟩ : PackageDecl) with downloadURL :=
          if ("" : String) = "" then "https://u" else "" }], []) :=
  duplicate_package_decl_first_wins ⟨"aws", "6.0.0", "", none⟩ ⟨"aws", "6.1.0", "https://u", none⟩
    rfl rfl rfl (by decide) (by decide) (by decide) (by decide)

end PulumiYaml
